import Mathlib

/-!
# MobiGadget auto-blogger: duplicate-detection and publish-once core

Shallow embedding of the RSS → rewrite → image → Blogger pipeline variants in
this repository (src/app.js, three concatenated programs, and the two further
variants in src/unnamed/part_000 and src/unnamed/part_001), restricted to the
logic the specification's core contract is about: the posted-ledger
(`hasBeenPosted` / `markPosted`), the slug derivation (`generateSlug`), the
candidate selection, and the per-item orchestration of `processOnce`
(image resolution, transform fallback, rewrite, publish, commit).

External collaborators (OpenAI, Unsplash, Blogger, sharp/Jimp, HTTP fetch) are
modelled by per-item environment records giving each call's outcome; the pure
string machinery that the control flow depends on (the image-extraction
regexes, JavaScript truthiness, the slug pipeline) is translated directly from
the source.  Machine-level details that no claim depends on (exact HTML
template assembly, logging, sleeps) are noted in comments where the source has
them.  Character classes follow the ASCII semantics of the JavaScript regexes
involved (`\w`, `\s`); the repository only ever derives slugs and matches
markup over ASCII-delimited HTML.
-/

/-! ## JavaScript primitives -/

/-- Truthiness of a JavaScript string: only the empty string is falsy. -/
def truthy (s : String) : Bool := s != ""

/-- JavaScript `a || b` where `a` is a possibly-absent string and the result
must be a string. -/
def jsOrStr (a : Option String) (b : String) : String :=
  match a with
  | some s => if truthy s then s else b
  | none => b

/-- JavaScript `a || null` for a possibly-absent string (used by the
`published_at || null` arguments of every `markPosted`). -/
def jsOrNull (a : Option String) : Option String :=
  match a with
  | some s => if truthy s then some s else none
  | none => none

/-- Character class `\s` of the JavaScript regexes involved (ASCII part):
tab, line feed, vertical tab, form feed, carriage return, space. -/
def isJsSpace (c : Char) : Bool :=
  (9 ≤ c.toNat && c.toNat ≤ 13) || c.toNat == 32

/-- Character class `\w` of the JavaScript regexes involved:
`[A-Za-z0-9_]`. -/
def isWordChar (c : Char) : Bool :=
  (97 ≤ c.toNat && c.toNat ≤ 122) ||   -- a-z
  (65 ≤ c.toNat && c.toNat ≤ 90) ||    -- A-Z
  (48 ≤ c.toNat && c.toNat ≤ 57) ||    -- 0-9
  c == '_'

/-- ASCII uppercase test (the case `String.prototype.toLowerCase` maps). -/
def isUpperAscii (c : Char) : Bool :=
  65 ≤ c.toNat && c.toNat ≤ 90

/-- One character of `String.prototype.toLowerCase`, on the ASCII range the
sources exercise. -/
def jsToLower (c : Char) : Char :=
  if isUpperAscii c then Char.ofNat (c.toNat + 32) else c

/-! ## The slug pipeline

Source (textually identical in src/unnamed/part_000 lines 82–87 and
src/unnamed/part_001 lines 85–90):

  function generateSlug(title) \{
    return title.toLowerCase()
      .replace(/[^\w\s]/g, '')
      .replace(/\s+/g, '-')
      .substring(0, 100);
  \}
-/

/-- Global replacement `/\s+/g → '-'`: every maximal whitespace run becomes a
single hyphen.  The boolean argument records whether the previous character
belonged to a whitespace run. -/
def collapseWsAux : Bool → List Char → List Char
  | _, [] => []
  | prevSpace, c :: cs =>
    if isJsSpace c then
      if prevSpace then collapseWsAux true cs
      else '-' :: collapseWsAux true cs
    else c :: collapseWsAux false cs

/-- Replacement of every whitespace run by one hyphen (`.replace(/\s+/g, '-')`). -/
def collapseWs (l : List Char) : List Char := collapseWsAux false l

/-- Slug derivation of part_000/part_001: lowercase, strip characters that are
neither word characters nor whitespace, collapse whitespace runs to single
hyphens, truncate to 100 characters. -/
def generateSlug (title : String) : String :=
  let lowered := title.data.map jsToLower
  let stripped := lowered.filter (fun c => isWordChar c || isJsSpace c)
  String.mk ((collapseWs stripped).take 100)

/-- Characters a slug may contain: word characters (including the underscore,
which `\w` keeps) and the hyphens introduced for whitespace. -/
def slugCharOK (c : Char) : Bool := isWordChar c || c == '-'

/-! ## Image / article extraction regexes

The orchestrators locate the representative image with
`/<img[^>]+src=["']([^"']+)["']/i` (inline in app.js lines 156 and 883,
`extractFirstImageFromHtml` in app.js lines 1034–1039, inline in
src/unnamed/part_001 line 344), and the page-fallback variant additionally
uses `extractOgImage` (app.js lines 1041–1047) and `extractMainArticle`
(app.js lines 1049–1061).  They are embedded as scanners with the leftmost,
greedy-with-backtracking semantics of those regexes. -/

/-- Case-insensitive character equality, as a JavaScript `/i` regex. -/
def ciEq (a b : Char) : Bool := a.toLower == b.toLower

/-- Match a literal pattern (case-insensitively) against a prefix; returns the
remainder on success. -/
def lit : List Char → List Char → Option (List Char)
  | [], s => some s
  | _ :: _, [] => none
  | p :: ps, c :: cs => if ciEq p c then lit ps cs else none

/-- The regex class `["']`. -/
def isQuote (c : Char) : Bool := c == '"' || c.toNat == 39

/-- Consume one quote character. -/
def expectQuote : List Char → Option (List Char)
  | c :: cs => if isQuote c then some cs else none
  | [] => none

/-- Match `["']([^"']+)["']`: opening quote, nonempty greedy run of non-quote
characters (the capture), closing quote. -/
def quotedCapture : List Char → Option (List Char)
  | [] => none
  | c :: cs =>
    if isQuote c then
      let cap := cs.takeWhile (fun d => !isQuote d)
      let rest := cs.drop cap.length
      if cap.isEmpty then none
      else match rest with
        | [] => none
        | _ :: _ => some cap
    else none

/-- Try gap lengths `n, n-1, …, 0` (the backtracking order of a greedy `*`). -/
def searchBack {α : Type} (f : Nat → Option α) : Nat → Option α
  | 0 => f 0
  | Nat.succ k => (f (k + 1)) <|> searchBack f k

/-- Try gap lengths `n, n-1, …, 1` (the backtracking order of a greedy `+`). -/
def searchBack1 {α : Type} (f : Nat → Option α) : Nat → Option α
  | 0 => none
  | Nat.succ k => (f (k + 1)) <|> searchBack1 f k

/-- Leftmost-match search: try the pattern at each successive suffix. -/
def scanLeftmost (f : List Char → Option (List Char)) : List Char → Option (List Char)
  | [] => f []
  | c :: cs => (f (c :: cs)) <|> scanLeftmost f cs

/-- After a matched `<img`, match `[^>]+src=["']([^"']+)["']`. -/
def imgTagScan (s : List Char) : Option (List Char) :=
  let run := s.takeWhile (fun c => c != '>')
  searchBack1 (fun k => (lit "src=".data (s.drop k)).bind quotedCapture) run.length

/-- First `src` captured by `/<img[^>]+src=["']([^"']+)["']/i`, or `none`. -/
def firstImgSrc (html : String) : Option String :=
  (scanLeftmost (fun s => (lit "<img".data s).bind imgTagScan) html.data).map
    fun cs => String.mk cs

/-- First alternative of `extractOgImage`:
`/property=["']og:image["']\s*content=["']([^"']+)["']/i` at one position. -/
def ogScan1 (s : List Char) : Option (List Char) :=
  (lit "property=".data s).bind fun r1 =>
  (expectQuote r1).bind fun r2 =>
  (lit "og:image".data r2).bind fun r3 =>
  (expectQuote r3).bind fun r4 =>
  (lit "content=".data (r4.dropWhile isJsSpace)).bind quotedCapture

/-- Second alternative of `extractOgImage`:
`/<meta[^>]*name=["']og:image["'][^>]*content=["']([^"']+)["']/i` at one
position. -/
def ogScan2 (s : List Char) : Option (List Char) :=
  (lit "<meta".data s).bind fun r =>
    let run := r.takeWhile (fun c => c != '>')
    searchBack (fun kA =>
      (lit "name=".data (r.drop kA)).bind fun r2 =>
      (expectQuote r2).bind fun r3 =>
      (lit "og:image".data r3).bind fun r4 =>
      (expectQuote r4).bind fun r5 =>
        let run2 := r5.takeWhile (fun c => c != '>')
        searchBack (fun kB =>
          (lit "content=".data (r5.drop kB)).bind quotedCapture) run2.length)
      run.length

/-- Open-Graph image extraction of the page-fallback variant
(app.js lines 1041–1047). -/
def extractOgImage (html : String) : Option String :=
  ((scanLeftmost ogScan1 html.data) <|> (scanLeftmost ogScan2 html.data)).map
    fun cs => String.mk cs

/-- Lazy capture `([\s\S]*?)` up to the first occurrence of a literal. -/
def captureLazyUntil (pat : List Char) : List Char → Option (List Char)
  | [] => if (lit pat []).isSome then some [] else none
  | c :: cs =>
    if (lit pat (c :: cs)).isSome then some []
    else (captureLazyUntil pat cs).map (fun r => c :: r)

/-- One-position match of the second `extractMainArticle` regex,
`/<div[^>]*class=["']o-article-blocks["'][^>]*>([\s\S]*?)<\/div>/i`. -/
def articleBlocksScan (s : List Char) : Option (List Char) :=
  (lit "<div".data s).bind fun r =>
    let run := r.takeWhile (fun c => c != '>')
    searchBack (fun kA =>
      (lit "class=".data (r.drop kA)).bind fun r2 =>
      (expectQuote r2).bind fun r3 =>
      (lit "o-article-blocks".data r3).bind fun r4 =>
      (expectQuote r4).bind fun r5 =>
        let run2 := r5.takeWhile (fun c => c != '>')
        searchBack (fun kB =>
          match r5.drop kB with
          | g :: rest => if g = '>' then captureLazyUntil "</div>".data rest else none
          | [] => none) run2.length)
      run.length

/-- Article-body extraction of the page-fallback variant
(app.js lines 1049–1061): the GSMArena `article-body` div, else the Engadget
`o-article-blocks` div. -/
def extractMainArticle (html : String) : Option String :=
  match scanLeftmost (fun s =>
      (lit "<div class=\"article-body\">".data s).bind
        (captureLazyUntil "</div>".data)) html.data with
  | some cap => some (String.mk cap)
  | none =>
    (scanLeftmost articleBlocksScan html.data).map fun cs => String.mk cs

/-! ## Data model -/

/-- A feed item as the `rss-parser` output is consumed: optional GUID and
auxiliary identifiers, the link, the title, the body candidates, and the
publication dates.  Absent fields are `none`; the JavaScript `||` fallbacks
are applied by the accessor functions below. -/
structure FeedItem where
  guid : Option String
  itemId : Option String
  link : String
  title : String
  contentEncoded : Option String
  content : Option String
  contentSnippet : Option String
  pubDate : Option String
  isoDate : Option String
  deriving Repr, DecidableEq

/-- Deduplication identity: `item.guid || item.link`. -/
def identityOf (it : FeedItem) : String := jsOrStr it.guid it.link

/-- Snippet resolution: `item.contentSnippet || ''`. -/
def snippetOf (it : FeedItem) : String := jsOrStr it.contentSnippet ""

/-- Body resolution: `item['content:encoded'] || item.content || snippet`. -/
def contentOf (it : FeedItem) : String :=
  jsOrStr it.contentEncoded (jsOrStr it.content (snippetOf it))

/-- Observable external calls of one orchestrator pass: a Text-Rewriter
invocation and a Publisher invocation (`blogger.posts.insert`), tagged with
the item identity they derive from, the image source interpolated into the
published HTML, and whether the call returned. -/
inductive Event where
  | rewrite (identity : String)
  | publish (identity : String) (img : Option String) (ok : Bool)
  deriving Repr, DecidableEq

/-- Identity an event derives from. -/
def Event.identity : Event → String
  | .rewrite g => g
  | .publish g _ _ => g

/-- Row of the two-key `posted` table (app.js programs: columns `guid` and
`link` are UNIQUE; `title` and `published_at` carry no constraint).  The
`feed_url` column of the second program is dropped: nothing reads it except
the round-robin feed selector, which no claim concerns. -/
structure PostRecordBasic where
  guid : String
  link : String
  title : String
  publishedAt : Option String
  deriving Repr, DecidableEq

/-- Row of the three-key `posted` table (part_000/part_001 first program:
`guid`, `link` and `title_slug` are each UNIQUE). -/
structure PostRecord where
  guid : String
  link : String
  title : String
  titleSlug : String
  publishedAt : Option String
  deriving Repr, DecidableEq

/-! ## Pass machinery -/

/-- Outcome of one loop iteration of `processOnce`: continue with the next
candidate, or end the pass (an uncaught throw reaching the pass-level catch,
or the `MODE === 'once'` early return). -/
inductive Outcome (σ : Type) where
  | cont (s : σ) (evs : List Event)
  | stop (s : σ) (evs : List Event)

/-- State an iteration ends in. -/
def Outcome.state {σ : Type} : Outcome σ → σ
  | .cont s _ => s
  | .stop s _ => s

/-- Events an iteration emits. -/
def Outcome.events {σ : Type} : Outcome σ → List Event
  | .cont _ e => e
  | .stop _ e => e

/-- Sequential driver of the per-item loop: items are handled one at a time,
each fully resolved before the next begins; a `stop` outcome ends the pass. -/
def drive {σ ι : Type} (f : σ → ι → Outcome σ) : σ → List ι → σ × List Event
  | s, [] => (s, [])
  | s, x :: xs =>
    match f s x with
    | .cont s1 evs =>
      let r := drive f s1 xs
      (r.1, evs ++ r.2)
    | .stop s1 evs => (s1, evs)

/-- Sequential passes (consecutive scheduler ticks over the same state). -/
def runPassesG {σ ι : Type} (pass : σ → ι → σ × List Event) :
    σ → List ι → σ × List Event
  | s, [] => (s, [])
  | s, f :: fs =>
    let r1 := pass s f
    let r2 := runPassesG pass r1.1 fs
    (r2.1, r1.2 ++ r2.2)

/-! ## Two-key ledger (all three app.js programs) -/

namespace BasicDb

/-- app.js lines 74–77 (textually identical at lines 291–294 and 1008–1011):
`SELECT 1 FROM posted WHERE guid = ? OR link = ?`, both placeholders bound to
the same identifier. -/
def hasBeenPosted (db : List PostRecordBasic) (x : String) : Bool :=
  db.any (fun r => r.guid == x || r.link == x)

/-- app.js lines 78–81 (textually identical at lines 750–753 and 1013–1016):
`INSERT OR IGNORE INTO posted (guid, link, title, published_at)` under the
UNIQUE constraints on `guid` and `link`: the row is appended unless an
existing row collides on either column, in which case the statement is a
silent no-op. -/
def markPosted (db : List PostRecordBasic) (guid link title : String)
    (published_at : Option String) : List PostRecordBasic :=
  if db.any (fun r => r.guid == guid || r.link == link) then db
  else db ++ [⟨guid, link, title, jsOrNull published_at⟩]

end BasicDb

/-! ## app.js first program (lines 143–185): slice-then-filter orchestrator -/

namespace AppV1

/-- Outcomes of the external calls made for one item: the Jimp logo overlay
(`some` base64 data on success, `none` when it throws), the OpenAI rewrite
(`none` when the call throws), and `blogger.posts.insert` (`some` published
URL, `none` when it throws). -/
structure ItemEnv where
  overlay : Option String
  rewrite : Option String
  publish : Option String
  deriving Repr, DecidableEq

/-- app.js lines 87–107: the overlay pipeline; on any failure the `catch`
returns the original image URL unchanged. -/
def overlayLogoOnImage (e : ItemEnv) (imageUrl : String) : String :=
  match e.overlay with
  | some b64 => b64
  | none => imageUrl

/-- app.js lines 110–135: the OpenAI rewrite; the `catch` returns the raw
`content` unchanged.  (The code-fence and anchor-tag cleanup of the success
path transforms only the returned HTML, which no claim inspects.) -/
def rewriteWithOpenAI (e : ItemEnv) (content : String) : String :=
  match e.rewrite with
  | some html => html
  | none => content

/-- Loop body of `processOnce` (app.js lines 149–181).  In order: duplicate
check on the identity, image extraction from the body (skip when absent),
logo overlay, rewrite, `blogger.posts.insert`, and — only after the insert
returned — `markPosted`.  A throwing insert propagates to the pass-level
`catch` (lines 182–184), ending the pass. -/
def runItem (s : List PostRecordBasic) (p : FeedItem × ItemEnv) :
    Outcome (List PostRecordBasic) :=
  let it := p.1
  let e := p.2
  let guid := identityOf it
  if BasicDb.hasBeenPosted s guid then .cont s []
  else
    let content := contentOf it
    match firstImgSrc content with
    | none => .cont s []
    | some imageUrl0 =>
      let imageUrl := overlayLogoOnImage e imageUrl0
      let _rewritten := rewriteWithOpenAI e content
      -- generateMeta (lines 137–140) is pure string assembly; finalHtml
      -- (lines 167–171) embeds imageUrl as the img src
      let evs := [Event.rewrite guid,
                  Event.publish guid (some imageUrl) e.publish.isSome]
      match e.publish with
      | none => .stop s evs
      | some _ =>
        .cont (BasicDb.markPosted s guid it.link it.title it.pubDate) evs

/-- One pass (app.js lines 143–185): the batch is the first
`MAX_ITEMS_PER_RUN` feed items; the duplicate check happens per item inside
the loop. -/
def processOnce (maxItems : Nat) (s : List PostRecordBasic)
    (feed : List (FeedItem × ItemEnv)) : List PostRecordBasic × List Event :=
  drive runItem s (feed.take maxItems)

/-- Sequential passes over the same persistent ledger (consecutive cron
ticks, app.js lines 188–197). -/
def runPasses (maxItems : Nat) (s : List PostRecordBasic)
    (passes : List (List (FeedItem × ItemEnv))) :
    List PostRecordBasic × List Event :=
  runPassesG (fun s0 f => processOnce maxItems s0 f) s passes

end AppV1

/-! ## app.js second program (lines 865–920): filter-then-slice selection -/

namespace AppV2

/-- Candidate selection of the bug-fixed second program (app.js lines
871–874): filter the unposted items first, then slice to the batch size.
Its `hasBeenPosted` (app.js lines 291–294) is textually the first
program's. -/
def itemsToProcess (db : List PostRecordBasic) (items : List FeedItem)
    (maxItems : Nat) : List FeedItem :=
  (items.filter (fun item => !BasicDb.hasBeenPosted db (identityOf item))).take
    maxItems

end AppV2

/-! ## app.js third program (lines 1309–1445): page-fallback orchestrator -/

namespace AppV4

/-- Outcomes of the external calls for one item: `fetchPage` (page HTML, or
`none` on any error, lines 1022–1032), the rewrite (`none` when the call
throws — this program's `rewriteWithOpenAI` rethrows, lines 1169–1197),
`replaceGSMArenaLogo` (composited buffer, `none` on failure, lines
1064–1140), `uploadImageToBlogger` (url, `none` on failure, lines 1142–1166)
and `blogger.posts.insert` via `createBloggerPost` (which rethrows, lines
1292–1307). -/
structure ItemEnv where
  page : Option String
  rewrite : Option String
  transform : Option String
  upload : Option String
  publish : Option String
  deriving Repr, DecidableEq

/-- Identifier resolution of the third program (app.js line 1320):
`item.guid || item.link || item.id || item.title`. -/
def guidOf (it : FeedItem) : String :=
  jsOrStr it.guid (if truthy it.link then it.link else jsOrStr it.itemId it.title)

/-- Title fallback (app.js line 1322): `item.title || 'Untitled'`. -/
def titleOf (it : FeedItem) : String :=
  if truthy it.title then it.title else "Untitled"

/-- Image and body resolution (app.js lines 1332–1347): fetch the article
page when a link exists; a fetched page may replace the body with the
extracted main article and supplies the Open-Graph or first page image;
failing that, the first image of the body is used. -/
def resolve (e : ItemEnv) (it : FeedItem) : String × Option String :=
  let fullContent0 := contentOf it
  let pr :=
    if truthy it.link then
      match e.page with
      | some html =>
        let fc :=
          match extractMainArticle html with
          | some x => if truthy x then x else fullContent0
          | none => fullContent0
        (fc,
          match extractOgImage html with
          | some u => some u
          | none => firstImgSrc html)
      | none => (fullContent0, (none : Option String))
    else (fullContent0, (none : Option String))
  (pr.1,
    match pr.2 with
    | some u => some u
    | none => firstImgSrc pr.1)

/-- The image source interpolated into the final HTML (app.js lines
1366–1410): the uploaded watermarked image when both the transform and the
upload succeed; the original image URL when the logo file is missing or
watermarking or the upload fails; nothing when no image was resolved. -/
def imgSrcOf (logoExists : Bool) (e : ItemEnv) (imageUrl : Option String) :
    Option String :=
  match imageUrl with
  | none => none
  | some u =>
    if logoExists then
      match e.transform with
      | some _buf =>
        match e.upload with
        | some up => some up
        | none => some u
      | none => some u
    else some u

/-- Loop body of the third program's `processOnce` (app.js lines 1319–1441).
Duplicate check on both the guid and the link; page fetch and image
resolution; the rewrite, whose failure skips just this item (lines
1349–1355); the image block with fallback to the original image;
`createBloggerPost` wrapped in a per-item try/catch that `continue`s on
failure (lines 1417–1423); `markPosted` only after a successful post;
`MODE === 'once'` stops after the first success (lines 1437–1440). -/
def runItem (mode logoExists : Bool) (s : List PostRecordBasic)
    (p : FeedItem × ItemEnv) : Outcome (List PostRecordBasic) :=
  let it := p.1
  let e := p.2
  let guid := guidOf it
  let link := it.link
  let title := titleOf it
  if BasicDb.hasBeenPosted s guid || BasicDb.hasBeenPosted s link then
    .cont s []
  else
    let ri := resolve e it
    let imageUrl := ri.2
    match e.rewrite with
    | none => .cont s [Event.rewrite guid]
    | some _html =>
      -- generateImageAlt / generateImageTitle / generateTags (lines
      -- 1200–1276) recover internally; no control flow
      let img := imgSrcOf logoExists e imageUrl
      let evs := [Event.rewrite guid, Event.publish guid img e.publish.isSome]
      match e.publish with
      | none => .cont s evs
      | some _ =>
        let s1 := BasicDb.markPosted s guid link title
          (match jsOrNull it.pubDate with
           | some d => some d
           | none => jsOrNull it.isoDate)
        if mode then .stop s1 evs else .cont s1 evs

/-- One pass (app.js lines 1309–1445): slice to the batch size, duplicate
check per item inside the loop. -/
def processOnce (mode logoExists : Bool) (maxItems : Nat)
    (s : List PostRecordBasic) (feed : List (FeedItem × ItemEnv)) :
    List PostRecordBasic × List Event :=
  drive (runItem mode logoExists) s (feed.take maxItems)

end AppV4

/-! ## part_000 (Mobiseko): three-key ledger with process-lifetime cache -/

namespace Mobiseko

/-- Structured output of `generateArticleAndMetadata` (part_000 lines
209–261); the orchestrator requires a non-empty `article_body`. -/
structure ArticleData where
  title : String
  search_description : String
  meta_tags : String
  alt_text : String
  article_body : String
  deriving Repr, DecidableEq

/-- Outcomes of the external calls for one item: article generation (`none`
models the `catch` returning `null`), the Unsplash search (`none` on no hit
or API error), the Blogger image upload (`none` on failure),
`classifyCategory` (recovers internally; `none` iff no categories are
configured) and `blogger.posts.insert`. -/
structure ItemEnv where
  articleData : Option ArticleData
  unsplash : Option String
  bloggerUpload : Option String
  category : Option String
  publish : Option String
  deriving Repr, DecidableEq

/-- Ledger state: the process-lifetime `PROCESSED_CACHE` set (part_000 line
47) and the persistent `posted` table. -/
structure LedgerState where
  cache : List String
  db : List PostRecord
  deriving Repr, DecidableEq

/-- JavaScript `Set.prototype.add`: insertion-order set, no duplicates. -/
def setAdd (s : List String) (x : String) : List String :=
  if s.contains x then s else x :: s

/-- part_000 lines 90–99: `PROCESSED_CACHE.has(guid)` short-circuit, then
`SELECT 1 FROM posted WHERE guid = ? OR link = ? OR title_slug = ?`. -/
def hasBeenPosted (s : LedgerState) (guid link title : String) : Bool :=
  let titleSlug := generateSlug title
  s.cache.contains guid ||
    s.db.any (fun r => r.guid == guid || r.link == link ||
      r.titleSlug == titleSlug)

/-- part_000 lines 101–111: `PROCESSED_CACHE.add(guid)`, then
`INSERT OR IGNORE INTO posted (guid, link, title, title_slug, published_at)`
under the UNIQUE constraints on `guid`, `link` and `title_slug` (silent no-op
on any collision). -/
def markPosted (s : LedgerState) (guid link title : String)
    (published_at : Option String) : LedgerState :=
  let titleSlug := generateSlug title
  { cache := setAdd s.cache guid,
    db :=
      if s.db.any (fun r => r.guid == guid || r.link == link ||
          r.titleSlug == titleSlug) then s.db
      else s.db ++ [⟨guid, link, title, titleSlug, jsOrNull published_at⟩] }

/-- Candidate selection (part_000 lines 269–274): filter the unposted items
first, then slice to the batch size. -/
def itemsToProcess (s : LedgerState) (feed : List (FeedItem × ItemEnv))
    (maxItems : Nat) : List (FeedItem × ItemEnv) :=
  (feed.filter (fun p =>
    !hasBeenPosted s (identityOf p.1) p.1.link p.1.title)).take maxItems

/-- Loop body (part_000 lines 278–351).  The identity is added to
`PROCESSED_CACHE` the moment the item is selected (line 284), before any
external call.  Then: article generation (skip unless it returns an object
with a non-empty `article_body`), the optional Unsplash image with
Blogger-upload fallback to the direct Unsplash URL, category/label shaping
(no control flow), `blogger.posts.insert`, and — only after the insert
returned — `markPosted`; `MODE === 'once'` returns after the first success;
a throwing insert reaches the pass-level catch (lines 352–354), ending the
pass. -/
def runItem (mode : Bool) (s : LedgerState) (p : FeedItem × ItemEnv) :
    Outcome LedgerState :=
  let it := p.1
  let e := p.2
  let guid := identityOf it
  let s1 : LedgerState := { s with cache := setAdd s.cache guid }
  match e.articleData with
  | none => .cont s1 []
  | some ad =>
    if ad.article_body == "" then .cont s1 []
    else
      let finalImageUrl : Option String :=
        match e.unsplash with
        | some u => some (jsOrStr e.bloggerUpload u)
        | none => none
      let evs := [Event.publish guid finalImageUrl e.publish.isSome]
      match e.publish with
      | none => .stop s1 evs
      | some _ =>
        let s2 := markPosted s1 guid it.link it.title it.pubDate
        if mode then .stop s2 evs else .cont s2 evs

/-- One pass (part_000 lines 264–355). -/
def processOnce (mode : Bool) (maxItems : Nat) (s : LedgerState)
    (feed : List (FeedItem × ItemEnv)) : LedgerState × List Event :=
  drive (runItem mode) s (itemsToProcess s feed maxItems)

/-- Sequential passes within one process: the cron scheduler re-invokes
`processOnce` in the same process, so `PROCESSED_CACHE` persists across
passes while the `posted` table persists regardless (part_000 lines
357–375). -/
def runPasses (mode : Bool) (maxItems : Nat) (s : LedgerState)
    (passes : List (List (FeedItem × ItemEnv))) : LedgerState × List Event :=
  runPassesG (fun s0 f => processOnce mode maxItems s0 f) s passes

end Mobiseko

/-! ## part_001 first program (MobiGadget): three-key ledger, sharp transform -/

namespace MobiGadget

/-- Outcomes of the external calls for one item: `concealLogoAndResize`
(final buffer, `none` when the download or processing fails, part_001 lines
149–218), the Blogger media upload (`none` when it throws — its catch falls
back to a base64 data URL, lines 126–146), the rewrite (`none` when the call
throws — its catch substitutes fallback HTML, lines 286–317) and
`blogger.posts.insert`. -/
structure ItemEnv where
  transform : Option String
  upload : Option String
  rewrite : Option String
  publish : Option String
  deriving Repr, DecidableEq

/-- part_001 lines 93–103:
`SELECT 1 FROM posted WHERE guid = ? OR link = ? OR title_slug = ?`. -/
def hasBeenPosted (db : List PostRecord) (guid link title : String) : Bool :=
  let titleSlug := generateSlug title
  db.any (fun r => r.guid == guid || r.link == link ||
    r.titleSlug == titleSlug)

/-- part_001 lines 106–114: `INSERT OR IGNORE` under the three UNIQUE
keys (silent no-op on any collision). -/
def markPosted (db : List PostRecord) (guid link title : String)
    (published_at : Option String) : List PostRecord :=
  let titleSlug := generateSlug title
  if db.any (fun r => r.guid == guid || r.link == link ||
      r.titleSlug == titleSlug) then db
  else db ++ [⟨guid, link, title, titleSlug, jsOrNull published_at⟩]

/-- part_001 lines 126–146: Blogger media upload; the `catch` falls back to
a base64 data URL of the buffer, so the function never fails. -/
def uploadImageToBlogger (e : ItemEnv) (buffer : String) : String :=
  match e.upload with
  | some url => url
  | none => "data:image/jpeg;base64," ++ buffer

/-- part_001 lines 286–317: the rewrite; the `catch` substitutes fallback
HTML built from the title and the raw content. -/
def rewriteWithOpenAI (e : ItemEnv) (title content : String) : String :=
  match e.rewrite with
  | some html => html
  | none =>
    "<p>Failed to rewrite content for " ++ title ++ ".</p><p>" ++ content ++
      "</p>"

/-- Loop body (part_001 lines 327–399): three-key duplicate check inside the
loop; image from the body (skip when absent, lines 346–349);
`concealLogoAndResize` with fallback to the original RSS image URL on
failure (lines 352–359); rewrite; meta/alt generation (recover internally);
`blogger.posts.insert` (a throw reaches the pass-level catch, lines
400–402); then `markPosted`; `MODE === 'once'` returns after the first
success. -/
def runItem (mode : Bool) (s : List PostRecord) (p : FeedItem × ItemEnv) :
    Outcome (List PostRecord) :=
  let it := p.1
  let e := p.2
  let guid := identityOf it
  if hasBeenPosted s guid it.link it.title then .cont s []
  else
    let content := contentOf it
    match firstImgSrc content with
    | none => .cont s []
    | some imageUrl =>
      let uploadedImageUrl :=
        match e.transform with
        | some buf => uploadImageToBlogger e buf
        | none => imageUrl
      let _rewritten := rewriteWithOpenAI e it.title content
      let evs := [Event.rewrite guid,
                  Event.publish guid (some uploadedImageUrl) e.publish.isSome]
      match e.publish with
      | none => .stop s evs
      | some _ =>
        let s1 := markPosted s guid it.link it.title it.pubDate
        if mode then .stop s1 evs else .cont s1 evs

/-- One pass (part_001 lines 320–403). -/
def processOnce (mode : Bool) (maxItems : Nat) (s : List PostRecord)
    (feed : List (FeedItem × ItemEnv)) : List PostRecord × List Event :=
  drive (runItem mode) s (feed.take maxItems)

end MobiGadget

/-! ## part_001 second program (GSM2Blogger Lite): per-item publish catch,
uncaught OpenAI helpers -/

/-- First alternative of the Lite program's Open-Graph extractor
(part_001 lines 531–534):
`/property=["']og:image["'][^>]*content=["']([^"']+)["']/i` at one position
(a `[^>]*` gap where the third app.js program's variant has `\s*`). -/
def ogScanLite (s : List Char) : Option (List Char) :=
  (lit "property=".data s).bind fun r1 =>
  (expectQuote r1).bind fun r2 =>
  (lit "og:image".data r2).bind fun r3 =>
  (expectQuote r3).bind fun r4 =>
    let run := r4.takeWhile (fun c => c != '>')
    searchBack (fun k =>
      (lit "content=".data (r4.drop k)).bind quotedCapture) run.length

/-- Open-Graph image extraction of the Lite program (`extract.ogImage`,
part_001 lines 531–534); its second alternative is the shared meta-tag
scan.  Its `extract.firstImage` and `extract.article` (lines 529–541) are
the shared `firstImgSrc` and `extractMainArticle` patterns. -/
def extractOgImageLite (html : String) : Option String :=
  ((scanLeftmost ogScanLite html.data) <|>
      (scanLeftmost ogScan2 html.data)).map fun cs => String.mk cs

namespace GsmLite

/-- Outcomes of the external calls for one item of the Lite program:
`fetchPage` (internal catch, `none` on any error, part_001 lines 517–527),
`generateMetaSEO` (lines 586–601; NO catch — `none` means the OpenAI call
throws), `rewriteWithOpenAI` (lines 544–573; NO catch — `none` means the
call throws), `generateImageMeta` (lines 575–584; NO catch), the logo
upload `uploadImageToBlogger` (lines 604–618; internal catch, `none` on
failure) and `createBloggerPost` (lines 620–626, rethrows). -/
structure ItemEnv where
  page : Option String
  metaSEO : Option (String × List String)
  rewrite : Option String
  imageMeta : Option String
  upload : Option String
  publish : Option String
  deriving Repr, DecidableEq

/-- Body and image resolution of the Lite program (part_001 lines 645–650):
the page is fetched unconditionally; an extracted (truthy) main article
replaces the body; the image is
`(html && (extract.ogImage(html) || extract.firstImage(html))) ||
extract.firstImage(content)`. -/
def resolve (e : ItemEnv) (it : FeedItem) : String × Option String :=
  let content0 := contentOf it
  let content :=
    match e.page with
    | some html =>
      match extractMainArticle html with
      | some m => if truthy m then m else content0
      | none => content0
    | none => content0
  let imageUrl0 : Option String :=
    match e.page with
    | some html =>
      match extractOgImageLite html with
      | some u => some u
      | none => firstImgSrc html
    | none => none
  (content,
    match imageUrl0 with
    | some u => some u
    | none => firstImgSrc content)

/-- The post step of the Lite loop (part_001 lines 686–695):
`createBloggerPost` inside a per-item try/catch; on success `markPosted`
(the shared two-key INSERT OR IGNORE — its `hasBeenPosted`/`markPosted`,
lines 489–496, are textually the app.js ones), the inter-item sleep, and
the `MODE === 'once'` return; on failure the catch logs and the loop
continues with the next candidate. -/
def postStep (mode : Bool) (s : List PostRecordBasic)
    (guid link title : String) (published_at : Option String) (e : ItemEnv)
    (img : Option String) : Outcome (List PostRecordBasic) :=
  let evs := [Event.rewrite guid, Event.publish guid img e.publish.isSome]
  match e.publish with
  | none => .cont s evs
  | some _ =>
    let s1 := BasicDb.markPosted s guid link title published_at
    if mode then .stop s1 evs else .cont s1 evs

/-- Loop body of the Lite program's `processOnce` (part_001 lines 635–695).
Identifier and title fallbacks are those of the third app.js program
(`item.guid || item.link || item.id || item.title`, `item.title ||
'Untitled'`, lines 636–638); two-key duplicate check on guid and link; page
fetch and image resolution; `generateMetaSEO` and `rewriteWithOpenAI` with
NO catch anywhere — a throw there escapes `processOnce` (which has no
pass-level try/catch either), abandoning the remaining candidates;
`generateImageMeta` likewise, invoked only when an image was resolved; then
the per-item-caught post step. -/
def runItem (mode logoExists : Bool) (s : List PostRecordBasic)
    (p : FeedItem × ItemEnv) : Outcome (List PostRecordBasic) :=
  let it := p.1
  let e := p.2
  let guid := AppV4.guidOf it
  let link := it.link
  let title := AppV4.titleOf it
  if BasicDb.hasBeenPosted s guid || BasicDb.hasBeenPosted s link then
    .cont s []
  else
    let ri := resolve e it
    let imageUrl := ri.2
    let published_at :=
      match jsOrNull it.pubDate with
      | some d => some d
      | none => jsOrNull it.isoDate
    match e.metaSEO with
    | none => .stop s []
    | some _mt =>
      match e.rewrite with
      | none => .stop s [Event.rewrite guid]
      | some _html =>
        match imageUrl with
        | some u =>
          match e.imageMeta with
          | none => .stop s [Event.rewrite guid]
          | some _alt =>
            postStep mode s guid link title published_at e
              (some (jsOrStr (if logoExists then e.upload else none) u))
        | none => postStep mode s guid link title published_at e none

/-- One pass of the Lite program (part_001 lines 629–696): slice to the
batch size, duplicate check per item inside the loop. -/
def processOnce (mode logoExists : Bool) (maxItems : Nat)
    (s : List PostRecordBasic) (feed : List (FeedItem × ItemEnv)) :
    List PostRecordBasic × List Event :=
  drive (runItem mode logoExists) s (feed.take maxItems)

end GsmLite

/-! ## Observables and shared lemmas -/

/-- Identities of the successful Publisher invocations in a trace. -/
def publishedIdentities (evs : List Event) : List String :=
  evs.filterMap (fun ev =>
    match ev with
    | Event.publish g _ true => some g
    | _ => none)

/-! ## Concrete scenario inputs -/

/-- All-success external environment for the first app.js program: overlay
fails (falling back to the original URL — immaterial here), rewrite and
publish succeed. -/
def envOkV1 : AppV1.ItemEnv :=
  { overlay := none, rewrite := some "<p>rewritten</p>",
    publish := some "http://blog/post" }

/-- Environment whose `blogger.posts.insert` throws. -/
def envPubFailV1 : AppV1.ItemEnv :=
  { overlay := none, rewrite := some "<p>rewritten</p>", publish := none }

/-- A feed item with a body image, parameterised by guid, link and title. -/
def imgItem (guid link title : String) : FeedItem :=
  { guid := some guid, itemId := none, link := link, title := title,
    contentEncoded := some "<img src=\"http://ex/pic.jpg\">", content := none,
    contentSnippet := none, pubDate := none, isoDate := none }

/-- Ledger holding the records of feed positions 2, 5 and 7. -/
def c5Db : List PostRecordBasic :=
  [⟨"g2", "l2", "t2", none⟩, ⟨"g5", "l5", "t5", none⟩, ⟨"g7", "l7", "t7", none⟩]

/-- The ten-item feed of the specification's example. -/
def c5Feed : List FeedItem :=
  [imgItem "g1" "l1" "t1", imgItem "g2" "l2" "t2", imgItem "g3" "l3" "t3",
   imgItem "g4" "l4" "t4", imgItem "g5" "l5" "t5", imgItem "g6" "l6" "t6",
   imgItem "g7" "l7" "t7", imgItem "g8" "l8" "t8", imgItem "g9" "l9" "t9",
   imgItem "g10" "l10" "t10"]

/-- A feed item whose body contains no img tag, under a link whose page fetch
fails, so no image URL is resolvable at all. -/
def c6Item : FeedItem :=
  { guid := some "g6", itemId := none, link := "http://ex/c6",
    title := "No Image Story", contentEncoded := some "<p>plain text only</p>",
    content := none, contentSnippet := none, pubDate := none, isoDate := none }

/-- Environment for `c6Item`: the page fetch fails, rewrite and publish
succeed. -/
def c6Env : AppV4.ItemEnv :=
  { page := none, rewrite := some "<p>rewritten</p>", transform := none,
    upload := none, publish := some "http://blog/c6" }

/-- Environment for the third app.js program whose publish call throws. -/
def c9EnvV4 : AppV4.ItemEnv :=
  { page := none, rewrite := some "<p>r</p>", transform := none,
    upload := none, publish := none }

/-- Environment for the Lite program whose publish call throws while every
OpenAI helper succeeds. -/
def c9EnvLite : GsmLite.ItemEnv :=
  { page := none, metaSEO := some ("d", ["t1"]),
    rewrite := some "<p>r</p>", imageMeta := some "alt text",
    upload := none, publish := none }

/-- Environment for the Lite program whose rewrite call throws. -/
def c9EnvLiteRwFail : GsmLite.ItemEnv :=
  { page := none, metaSEO := some ("d", []), rewrite := none,
    imageMeta := none, upload := none, publish := none }

/-- All-success external environment for the part_000 orchestrator. -/
def envOkM2 : Mobiseko.ItemEnv :=
  { articleData := some ⟨"T", "desc", "k1, k2", "alt text", "<p>body</p>"⟩,
    unsplash := some "http://img/u.jpg", bloggerUpload := none,
    category := some "News", publish := some "http://blog/m" }

/-! ## General lemmas -/

/-! ### Slug shape lemmas -/

lemma mem_collapseWsAux {c : Char} :
    ∀ (b : Bool) (l : List Char), c ∈ collapseWsAux b l →
      c = '-' ∨ (c ∈ l ∧ isJsSpace c = false) := by
  intro b l
  induction l generalizing b with
  | nil => simp [collapseWsAux]
  | cons d ds ih =>
    intro hmem
    simp only [collapseWsAux] at hmem
    by_cases hd : isJsSpace d
    · simp only [hd, if_true] at hmem
      by_cases hb : b
      · subst hb
        simp only [if_true] at hmem
        rcases ih true hmem with h | ⟨h1, h2⟩
        · exact Or.inl h
        · exact Or.inr ⟨List.mem_cons_of_mem _ h1, h2⟩
      · simp only [hb, if_false] at hmem
        rcases List.mem_cons.mp hmem with h | h
        · exact Or.inl h
        · rcases ih true h with h' | ⟨h1, h2⟩
          · exact Or.inl h'
          · exact Or.inr ⟨List.mem_cons_of_mem _ h1, h2⟩
    · simp only [hd, if_false] at hmem
      rcases List.mem_cons.mp hmem with h | h
      · subst h
        exact Or.inr ⟨List.mem_cons_self _ _, by simpa using hd⟩
      · rcases ih false h with h' | ⟨h1, h2⟩
        · exact Or.inl h'
        · exact Or.inr ⟨List.mem_cons_of_mem _ h1, h2⟩

lemma ofNat_shift_not_upper {n : Nat} (h1 : 65 ≤ n) (h2 : n ≤ 90) :
    isUpperAscii (Char.ofNat (n + 32)) = false := by
  interval_cases n <;> decide

lemma jsToLower_not_upper (a : Char) : isUpperAscii (jsToLower a) = false := by
  unfold jsToLower
  by_cases h : isUpperAscii a
  · simp only [h, if_true]
    unfold isUpperAscii at h
    simp only [Bool.and_eq_true, decide_eq_true_eq] at h
    exact ofNat_shift_not_upper h.1 h.2
  · simp only [h, if_false]
    simpa using h

lemma mem_generateSlug {c : Char} {t : String} (h : c ∈ (generateSlug t).data) :
    (slugCharOK c && !isUpperAscii c) = true := by
  unfold generateSlug at h
  simp only [String.data] at h
  have h1 : c ∈ collapseWs ((t.data.map jsToLower).filter
      (fun c => isWordChar c || isJsSpace c)) := List.mem_of_mem_take h
  rcases mem_collapseWsAux false _ h1 with hc | ⟨hmem, hns⟩
  · subst hc; decide
  · rcases List.mem_filter.mp hmem with ⟨hmap, hcls⟩
    rcases List.mem_map.mp hmap with ⟨a, _, rfl⟩
    have hup := jsToLower_not_upper a
    have hw : isWordChar (jsToLower a) = true := by
      simp only [Bool.or_eq_true] at hcls
      rcases hcls with h' | h'
      · exact h'
      · rw [hns] at h'
        cases h'
    simp [slugCharOK, hw, hup]

lemma drive_invariant {σ ι : Type} (P : σ → Prop) (Q : Event → Prop)
    (f : σ → ι → Outcome σ) :
    ∀ (l : List ι) (s : σ),
      (∀ s' x, x ∈ l → P s' → P (f s' x).state ∧ ∀ ev ∈ (f s' x).events, Q ev) →
      P s → P (drive f s l).1 ∧ ∀ ev ∈ (drive f s l).2, Q ev
  | [], s, _, hP => ⟨by simpa [drive] using hP, by simp [drive]⟩
  | x :: xs, s, hstep, hP => by
    have hx := hstep s x (List.mem_cons_self _ _) hP
    cases hfx : f s x with
    | cont s1 evs =>
      rw [hfx] at hx
      simp only [Outcome.state, Outcome.events] at hx
      have ih := drive_invariant P Q f xs s1
        (fun s' y hy => hstep s' y (List.mem_cons_of_mem _ hy)) hx.1
      constructor
      · simpa [drive, hfx] using ih.1
      · intro ev hev
        simp only [drive, hfx, List.mem_append] at hev
        rcases hev with h | h
        · exact hx.2 ev h
        · exact ih.2 ev h
    | stop s1 evs =>
      rw [hfx] at hx
      simp only [Outcome.state, Outcome.events] at hx
      refine ⟨by simpa [drive, hfx] using hx.1, ?_⟩
      intro ev hev
      simp only [drive, hfx] at hev
      exact hx.2 ev hev

lemma drive_new_records {σ ι ρ : Type} (rows : σ → List ρ)
    (just : ρ → Event → Prop) (f : σ → ι → Outcome σ) :
    ∀ (l : List ι) (s : σ),
      (∀ s' x, x ∈ l → ∀ r ∈ rows (f s' x).state,
          r ∈ rows s' ∨ ∃ ev ∈ (f s' x).events, just r ev) →
      ∀ r ∈ rows (drive f s l).1,
        r ∈ rows s ∨ ∃ ev ∈ (drive f s l).2, just r ev
  | [], s, _, r, hr => by
    simp only [drive] at hr
    exact Or.inl hr
  | x :: xs, s, hstep, r, hr => by
    cases hfx : f s x with
    | cont s1 evs =>
      simp only [drive, hfx] at hr
      have ih := drive_new_records rows just f xs s1
        (fun s' y hy => hstep s' y (List.mem_cons_of_mem _ hy)) r hr
      rcases ih with h | ⟨ev, hev, hj⟩
      · have hx := hstep s x (List.mem_cons_self _ _) r (by rw [hfx]; exact h)
        rcases hx with h' | ⟨ev, hev, hj⟩
        · exact Or.inl h'
        · rw [hfx] at hev
          simp only [Outcome.events] at hev
          exact Or.inr ⟨ev, by simp [drive, hfx, List.mem_append, hev], hj⟩
      · exact Or.inr ⟨ev, by simp [drive, hfx, List.mem_append, hev], hj⟩
    | stop s1 evs =>
      simp only [drive, hfx] at hr
      have hx := hstep s x (List.mem_cons_self _ _) r (by rw [hfx]; exact hr)
      rcases hx with h' | ⟨ev, hev, hj⟩
      · exact Or.inl h'
      · rw [hfx] at hev
        simp only [Outcome.events] at hev
        exact Or.inr ⟨ev, by simp [drive, hfx, hev], hj⟩

lemma runPassesG_invariant {σ ι : Type} (P : σ → Prop) (Q : Event → Prop)
    (pass : σ → ι → σ × List Event) :
    ∀ (fs : List ι) (s : σ),
      (∀ s' x, x ∈ fs → P s' → P (pass s' x).1 ∧ ∀ ev ∈ (pass s' x).2, Q ev) →
      P s → P (runPassesG pass s fs).1 ∧ ∀ ev ∈ (runPassesG pass s fs).2, Q ev
  | [], s, _, hP => ⟨by simpa [runPassesG] using hP, by simp [runPassesG]⟩
  | x :: xs, s, hstep, hP => by
    have hx := hstep s x (List.mem_cons_self _ _) hP
    have ih := runPassesG_invariant P Q pass xs (pass s x).1
      (fun s' y hy => hstep s' y (List.mem_cons_of_mem _ hy)) hx.1
    constructor
    · simpa [runPassesG] using ih.1
    · intro ev hev
      simp only [runPassesG, List.mem_append] at hev
      rcases hev with h | h
      · exact hx.2 ev h
      · exact ih.2 ev h

lemma contains_cons_self (s : List String) (x : String) :
    (x :: s).contains x = true := by
  simp [List.contains_cons]

lemma setAdd_contains_self (s : List String) (x : String) :
    (Mobiseko.setAdd s x).contains x = true := by
  unfold Mobiseko.setAdd
  by_cases h : s.contains x = true
  · rw [if_pos h]
    exact h
  · rw [if_neg h]
    exact contains_cons_self s x

lemma setAdd_contains_mono (s : List String) (x y : String)
    (h : s.contains x = true) : (Mobiseko.setAdd s y).contains x = true := by
  unfold Mobiseko.setAdd
  by_cases h' : s.contains y = true
  · rw [if_pos h']
    exact h
  · rw [if_neg h']
    rw [List.contains_cons, h]
    simp

lemma setAdd_idem (s : List String) (x : String) :
    Mobiseko.setAdd (Mobiseko.setAdd s x) x = Mobiseko.setAdd s x := by
  by_cases h : s.contains x = true
  · unfold Mobiseko.setAdd
    rw [if_pos h, if_pos h]
  · unfold Mobiseko.setAdd
    rw [if_neg h, if_pos (contains_cons_self s x)]

/-! ## Claim C8 -/

/-- C8: the slug derivation is a deterministic function of the title; for
every title the slug is at most 100 characters long and consists only of
word characters and hyphens — the characters of the class `[^\w\s]` (the
spec's "punctuation", which the source strips; `\w` keeps the underscore)
cannot occur, whitespace runs have become single hyphens — and it contains
no uppercase letter. -/
theorem C8_slug_determinism_and_shape :
    (∀ t₁ t₂ : String, t₁ = t₂ → generateSlug t₁ = generateSlug t₂) ∧
    (∀ t : String, (generateSlug t).length ≤ 100) ∧
    (∀ t : String,
      (generateSlug t).data.all
        (fun c => slugCharOK c && !isUpperAscii c) = true) := by
  refine ⟨fun t₁ t₂ h => by rw [h], fun t => ?_, fun t => ?_⟩
  · show ((collapseWs ((t.data.map jsToLower).filter
      (fun c => isWordChar c || isJsSpace c))).take 100).length ≤ 100
    exact List.length_take_le _ _
  · rw [List.all_eq_true]
    intro c hc
    exact mem_generateSlug hc

/-- Witness for C8 at the specification's example title: the slug computes to
`samsung-galaxy-s24-ultra-review` and has the claimed shape. -/
theorem C8_witness :
    generateSlug "Samsung Galaxy S24 Ultra: Review!" =
      "samsung-galaxy-s24-ultra-review" ∧
    generateSlug "Samsung Galaxy S24 Ultra: Review!" =
      generateSlug "Samsung Galaxy S24 Ultra: Review!" ∧
    (generateSlug "Samsung Galaxy S24 Ultra: Review!").length ≤ 100 ∧
    (generateSlug "Samsung Galaxy S24 Ultra: Review!").data.all
      (fun c => slugCharOK c && !isUpperAscii c) = true :=
  ⟨by decide, C8_slug_determinism_and_shape.1 _ _ rfl,
    C8_slug_determinism_and_shape.2.1 _, C8_slug_determinism_and_shape.2.2 _⟩

/-! ## Claim C4 -/

/-- C4: the three-key Ledger existence check (part_001's `hasBeenPosted`)
returns true exactly when some PostRecord matches the item's guid, or its
link, or its title slug — in particular a recorded link or title slug is
reported as a duplicate even under a fresh guid. -/
theorem C4_three_key_duplicate_check (db : List PostRecord)
    (guid link title : String) :
    MobiGadget.hasBeenPosted db guid link title = true ↔
      ∃ r ∈ db, r.guid = guid ∨ r.link = link ∨
        r.titleSlug = generateSlug title := by
  unfold MobiGadget.hasBeenPosted
  simp [List.any_eq_true, or_assoc]

/-! ## Claim C3 -/

/-- C3: recording the same logical post twice is a no-op — the second
`markPosted` changes neither the cache nor the table, because its
`INSERT OR IGNORE` collides with what the first call left behind — and when
no existing row matches any of the three keys, exactly one matching
PostRecord results.  The embedding is total: a constraint violation is a
silent ignore, never an error. -/
theorem C3_idempotent_ledger_record (s : Mobiseko.LedgerState)
    (guid link title : String) (published_at : Option String) :
    Mobiseko.markPosted (Mobiseko.markPosted s guid link title published_at)
        guid link title published_at =
      Mobiseko.markPosted s guid link title published_at ∧
    (s.db.any (fun r => r.guid == guid || r.link == link ||
        r.titleSlug == generateSlug title) = false →
      ((Mobiseko.markPosted s guid link title published_at).db.filter
        (fun r => r.guid == guid || r.link == link ||
          r.titleSlug == generateSlug title)).length = 1) := by
  constructor
  · by_cases h : s.db.any (fun r => r.guid == guid || r.link == link ||
        r.titleSlug == generateSlug title) = true
    · simp only [Mobiseko.markPosted, if_pos h]
      simp [setAdd_idem]
    · simp only [Mobiseko.markPosted, if_neg h]
      rw [if_pos (by simp [List.any_append])]
      simp [setAdd_idem]
  · intro h
    have h' : ¬(s.db.any (fun r => r.guid == guid || r.link == link ||
        r.titleSlug == generateSlug title) = true) := by simp [h]
    have hnil : s.db.filter (fun r => r.guid == guid || r.link == link ||
        r.titleSlug == generateSlug title) = [] := by
      rw [List.filter_eq_nil_iff]
      intro a ha
      intro hcon
      apply h'
      rw [List.any_eq_true]
      exact ⟨a, ha, hcon⟩
    simp only [Mobiseko.markPosted, if_neg h']
    rw [List.filter_append, hnil]
    simp

/-- Witness for C3: from an empty ledger, two identical `markPosted` calls
leave exactly one matching PostRecord. -/
theorem C3_witness :
    Mobiseko.markPosted
        (Mobiseko.markPosted ⟨[], []⟩ "g" "http://ex/l" "A Title" none)
        "g" "http://ex/l" "A Title" none =
      Mobiseko.markPosted ⟨[], []⟩ "g" "http://ex/l" "A Title" none ∧
    ((Mobiseko.markPosted ⟨[], []⟩ "g" "http://ex/l" "A Title" none).db.filter
      (fun r => r.guid == "g" || r.link == "http://ex/l" ||
        r.titleSlug == generateSlug "A Title")).length = 1 :=
  ⟨(C3_idempotent_ledger_record ⟨[], []⟩ "g" "http://ex/l" "A Title" none).1,
    (C3_idempotent_ledger_record ⟨[], []⟩ "g" "http://ex/l" "A Title" none).2
      (by decide)⟩

/-! ## Claim C1 -/

/-- C1: counter-scenario for at-most-once publishing in the first app.js
program.  Pass 1 publishes item A (guid `g1`, link `http://ex/story`) and
records it.  Item B is the same story re-issued under a fresh guid `g2` with
the same link.  In pass 2, `hasBeenPosted "g2"` is false (the check consults
only the identity), so B is published; `markPosted`'s `INSERT OR IGNORE`
is then silently dropped by the UNIQUE(link) collision with A's row, so the
ledger never learns of `g2`, and pass 3 — with pass 2's commit step fully
completed before its filter step began — publishes `g2` a second time.
Identity `g2` is successfully published twice across sequential passes over
the same ledger. -/
theorem C1_double_publish_across_passes :
    (publishedIdentities
        (AppV1.runPasses 1 []
          [[(imgItem "g1" "http://ex/story" "Story A", envOkV1)],
           [(imgItem "g2" "http://ex/story" "Story B", envOkV1)],
           [(imgItem "g2" "http://ex/story" "Story B", envOkV1)]]).2).count
      "g2" = 2 ∧
    (AppV1.runPasses 1 []
        [[(imgItem "g1" "http://ex/story" "Story A", envOkV1)],
         [(imgItem "g2" "http://ex/story" "Story B", envOkV1)],
         [(imgItem "g2" "http://ex/story" "Story B", envOkV1)]]).1 =
      [⟨"g1", "http://ex/story", "Story A", none⟩] := by
  constructor
  · decide
  · decide

/-! ## Claim C5 -/

/-- C5: at the specification's example input (ten feed items, items 2, 5 and
7 already recorded, batch size 3) the bug-fixed filter-then-slice selection
of the second app.js program selects items 1, 3 and 4 in feed order, exactly
as the claim states — while the first app.js program slices before
filtering and therefore processes and publishes only items 1 and 3. -/
theorem C5_filter_then_slice_vs_slice_then_filter :
    (AppV2.itemsToProcess c5Db c5Feed 3).map identityOf = ["g1", "g3", "g4"] ∧
    publishedIdentities
        (AppV1.processOnce 3 c5Db (c5Feed.map (fun it => (it, envOkV1)))).2 =
      ["g1", "g3"] := by
  constructor
  · decide
  · decide

/-! ## Claim C2 -/

/-- C2: counterexample to "if any stage before publish fails (image
resolution, image fetch, rewrite, publish call itself), no PostRecord for
that item is written".  In the first app.js program the OpenAI rewrite call
fails (`rewrite := none`; the catch substitutes the raw content) and the
image fetch/overlay fails (`overlay := none`; the catch substitutes the
original URL), yet the item is still published and a PostRecord is
written. -/
theorem C2_record_written_after_rewrite_failure :
    (AppV1.processOnce 1 []
        [(imgItem "g1" "http://ex/s" "T",
          { overlay := none, rewrite := none,
            publish := some "http://blog/p" })]).1 =
      [⟨"g1", "http://ex/s", "T", none⟩] := by
  decide

lemma appV1_runItem_records (s : List PostRecordBasic)
    (x : FeedItem × AppV1.ItemEnv) :
    ∀ r ∈ (AppV1.runItem s x).state, r ∈ s ∨
      ∃ ev ∈ (AppV1.runItem s x).events,
        ∃ img, ev = Event.publish r.guid img true := by
  intro r hr
  by_cases hbp : BasicDb.hasBeenPosted s (identityOf x.1) = true
  · simp only [AppV1.runItem, if_pos hbp, Outcome.state] at hr
    exact Or.inl hr
  · cases himg : firstImgSrc (contentOf x.1) with
    | none =>
      simp only [AppV1.runItem, if_neg hbp, himg, Outcome.state] at hr
      exact Or.inl hr
    | some u =>
      cases hpub : x.2.publish with
      | none =>
        simp only [AppV1.runItem, if_neg hbp, himg, hpub, Outcome.state] at hr
        exact Or.inl hr
      | some url =>
        simp only [AppV1.runItem, if_neg hbp, himg, hpub, Outcome.state,
          BasicDb.markPosted] at hr
        by_cases hc : s.any (fun q => q.guid == identityOf x.1 ||
            q.link == x.1.link) = true
        · rw [if_pos hc] at hr
          exact Or.inl hr
        · rw [if_neg hc] at hr
          rcases List.mem_append.mp hr with h | h
          · exact Or.inl h
          · simp only [List.mem_singleton] at h
            subst h
            refine Or.inr ⟨Event.publish (identityOf x.1)
              (some (AppV1.overlayLogoOnImage x.2 u)) true, ?_, ?_⟩
            · simp only [AppV1.runItem, if_neg hbp, himg, hpub, Outcome.events]
              simp
            · exact ⟨some (AppV1.overlayLogoOnImage x.2 u), rfl⟩

lemma mobiseko_runItem_records (mode : Bool) (s : Mobiseko.LedgerState)
    (x : FeedItem × Mobiseko.ItemEnv) :
    ∀ r ∈ (Mobiseko.runItem mode s x).state.db, r ∈ s.db ∨
      ∃ ev ∈ (Mobiseko.runItem mode s x).events,
        ∃ img, ev = Event.publish r.guid img true := by
  intro r hr
  cases had : x.2.articleData with
  | none =>
    simp only [Mobiseko.runItem, had, Outcome.state] at hr
    exact Or.inl hr
  | some ad =>
    by_cases hb : (ad.article_body == "") = true
    · simp only [Mobiseko.runItem, had, if_pos hb, Outcome.state] at hr
      exact Or.inl hr
    · cases hpub : x.2.publish with
      | none =>
        simp only [Mobiseko.runItem, had, if_neg hb, hpub, Outcome.state] at hr
        exact Or.inl hr
      | some url =>
        have hr' : r ∈ (Mobiseko.markPosted
            { s with cache := Mobiseko.setAdd s.cache (identityOf x.1) }
            (identityOf x.1) x.1.link x.1.title x.1.pubDate).db := by
          cases mode <;>
            simpa only [Mobiseko.runItem, had, if_neg hb, hpub, Outcome.state,
              Bool.false_eq_true, if_false, if_true] using hr
        simp only [Mobiseko.markPosted] at hr'
        by_cases hc : s.db.any (fun q => q.guid == identityOf x.1 ||
            q.link == x.1.link || q.titleSlug == generateSlug x.1.title) = true
        · rw [if_pos (by simpa using hc)] at hr'
          exact Or.inl (by simpa using hr')
        · rw [if_neg (by simpa using hc)] at hr'
          simp only [List.mem_append, List.mem_singleton] at hr'
          rcases hr' with h | h
          · exact Or.inl h
          · subst h
            refine Or.inr ⟨Event.publish (identityOf x.1)
              (match x.2.unsplash with
               | some u => some (jsOrStr x.2.bloggerUpload u)
               | none => none) true, ?_, ?_⟩
            · cases mode <;>
                · simp only [Mobiseko.runItem, had, if_neg hb, hpub,
                    Outcome.events, Bool.false_eq_true, if_false, if_true]
                  simp
            · exact ⟨(match x.2.unsplash with
                | some u => some (jsOrStr x.2.bloggerUpload u)
                | none => none), rfl⟩

/-- C2 (amended): the commit is gated on a publish that returned — every
PostRecord present after a pass was either present before the pass or is
justified by a successful Publisher invocation for the same identity during
the pass; this holds for the first app.js orchestrator and for part_000.
Failures that abandon an item before publish (missing image, failed article
generation, the publish call itself) therefore write nothing, while rewrite
and image-fetch/transform failures are recovered by fallbacks, do not
abandon the item, and are followed by a publish and only then a commit. -/
theorem C2_commit_only_after_confirmed_publish :
    (∀ (maxItems : Nat) (s : List PostRecordBasic)
        (feed : List (FeedItem × AppV1.ItemEnv)),
      ∀ r ∈ (AppV1.processOnce maxItems s feed).1,
        r ∈ s ∨ ∃ img, Event.publish r.guid img true ∈
          (AppV1.processOnce maxItems s feed).2) ∧
    (∀ (mode : Bool) (maxItems : Nat) (s : Mobiseko.LedgerState)
        (feed : List (FeedItem × Mobiseko.ItemEnv)),
      ∀ r ∈ (Mobiseko.processOnce mode maxItems s feed).1.db,
        r ∈ s.db ∨ ∃ img, Event.publish r.guid img true ∈
          (Mobiseko.processOnce mode maxItems s feed).2) := by
  constructor
  · intro maxItems s feed r hr
    have h := drive_new_records (fun d => d)
      (fun q ev => ∃ img, ev = Event.publish q.guid img true) AppV1.runItem
      (feed.take maxItems) s
      (fun s' x _ => appV1_runItem_records s' x) r hr
    rcases h with h | ⟨ev, hev, img, rfl⟩
    · exact Or.inl h
    · exact Or.inr ⟨img, hev⟩
  · intro mode maxItems s feed r hr
    have h := drive_new_records (fun st => st.db)
      (fun q ev => ∃ img, ev = Event.publish q.guid img true)
      (Mobiseko.runItem mode) (Mobiseko.itemsToProcess s feed maxItems) s
      (fun s' x _ => mobiseko_runItem_records mode s' x) r hr
    rcases h with h | ⟨ev, hev, img, rfl⟩
    · exact Or.inl h
    · exact Or.inr ⟨img, hev⟩

/-- Witness for C2 (amended) at a successful single-item pass of the first
app.js program: the one resulting record is justified by a successful
publish invocation for its identity. -/
theorem C2_witness :
    (⟨"g1", "http://ex/s", "T", none⟩ : PostRecordBasic) ∈
        ([] : List PostRecordBasic) ∨
      ∃ img, Event.publish "g1" img true ∈
        (AppV1.processOnce 1 []
          [(imgItem "g1" "http://ex/s" "T", envOkV1)]).2 :=
  C2_commit_only_after_confirmed_publish.1 1 []
    [(imgItem "g1" "http://ex/s" "T", envOkV1)]
    ⟨"g1", "http://ex/s", "T", none⟩ (by decide)

/-! ## Claim C6 -/

/-- C6: counterexample.  In the page-fallback program (app.js third program),
an item for which no image URL can be resolved — no img tag in the body, no
page to extract an Open-Graph image from — is NOT skipped: the Text Rewriter
and the Publisher are both invoked for it (without an image) and a PostRecord
is written. -/
theorem C6_published_without_image :
    firstImgSrc (contentOf c6Item) = none ∧
    (AppV4.resolve c6Env c6Item).2 = none ∧
    (AppV4.processOnce false true 1 [] [(c6Item, c6Env)]).2 =
      [Event.rewrite "g6", Event.publish "g6" none true] ∧
    (AppV4.processOnce false true 1 [] [(c6Item, c6Env)]).1 =
      [⟨"g6", "http://ex/c6", "No Image Story", none⟩] :=
  ⟨by decide, by decide, by decide, by decide⟩

lemma basicDb_not_posted_facts {db : List PostRecordBasic} {x : String}
    (h : BasicDb.hasBeenPosted db x = false) :
    ∀ q ∈ db, ¬(q.guid = x) ∧ ¬(q.link = x) := by
  intro q hq
  unfold BasicDb.hasBeenPosted at h
  have := List.any_eq_false.mp h q hq
  simpa using this

lemma basicDb_markPosted_no_conflict {db : List PostRecordBasic}
    {guid link : String} (title : String) (pub : Option String)
    (hg : BasicDb.hasBeenPosted db guid = false)
    (hl : BasicDb.hasBeenPosted db link = false) :
    BasicDb.markPosted db guid link title pub =
      db ++ [⟨guid, link, title, jsOrNull pub⟩] := by
  unfold BasicDb.markPosted
  rw [if_neg]
  intro hc
  rw [List.any_eq_true] at hc
  rcases hc with ⟨q, hq, hq2⟩
  rcases basicDb_not_posted_facts hg q hq with ⟨hg1, _⟩
  rcases basicDb_not_posted_facts hl q hq with ⟨_, hl2⟩
  simp only [Bool.or_eq_true, beq_iff_eq] at hq2
  rcases hq2 with h | h
  · exact hg1 h
  · exact hl2 h

lemma basicDb_posted_after_mark (db : List PostRecordBasic)
    (guid link title : String) (pub : Option String)
    (hg : BasicDb.hasBeenPosted db guid = false)
    (hl : BasicDb.hasBeenPosted db link = false) :
    BasicDb.hasBeenPosted (BasicDb.markPosted db guid link title pub) guid =
      true := by
  rw [basicDb_markPosted_no_conflict title pub hg hl]
  unfold BasicDb.hasBeenPosted
  rw [List.any_eq_true]
  exact ⟨⟨guid, link, title, jsOrNull pub⟩, by simp, by simp⟩

/-- C6 (amended): in the variants that resolve the image from the item body
alone, an item with no extractable image is skipped before the Rewriter and
the Publisher — it contributes no event and no state change to the pass
(first app.js program; the second app.js program and part_001's first
program behave the same way).  In the page-fallback third app.js program,
however, an unresolvable image does not skip the item: a fresh item is
rewritten, published without an image, and committed. -/
theorem C6_skip_on_missing_image_amended :
    (∀ (s : List PostRecordBasic) (it : FeedItem) (e : AppV1.ItemEnv)
        (rest : List (FeedItem × AppV1.ItemEnv)),
      firstImgSrc (contentOf it) = none →
      drive AppV1.runItem s ((it, e) :: rest) = drive AppV1.runItem s rest) ∧
    (∀ (mode logoExists : Bool) (s : List PostRecordBasic) (it : FeedItem)
        (e : AppV4.ItemEnv) (html url : String),
      BasicDb.hasBeenPosted s (AppV4.guidOf it) = false →
      BasicDb.hasBeenPosted s it.link = false →
      (AppV4.resolve e it).2 = none →
      e.rewrite = some html →
      e.publish = some url →
      (AppV4.processOnce mode logoExists 1 s [(it, e)]).2 =
        [Event.rewrite (AppV4.guidOf it),
         Event.publish (AppV4.guidOf it) none true] ∧
      BasicDb.hasBeenPosted
        (AppV4.processOnce mode logoExists 1 s [(it, e)]).1
        (AppV4.guidOf it) = true) := by
  constructor
  · intro s it e rest h
    have hru : AppV1.runItem s (it, e) = Outcome.cont s [] := by
      simp only [AppV1.runItem]
      by_cases hbp : BasicDb.hasBeenPosted s (identityOf it) = true
      · rw [if_pos hbp]
      · rw [if_neg hbp, h]
    simp only [drive, hru, List.nil_append]
  · intro mode logoExists s it e html url hbp1 hbp2 himg hrw hpub
    have hmk : ¬((BasicDb.hasBeenPosted s (AppV4.guidOf it) ||
        BasicDb.hasBeenPosted s it.link) = true) := by
      rw [hbp1, hbp2]
      simp
    have hru : AppV4.runItem mode logoExists s (it, e) =
        (if mode then
          Outcome.stop (BasicDb.markPosted s (AppV4.guidOf it) it.link
              (AppV4.titleOf it)
              (match jsOrNull it.pubDate with
               | some d => some d
               | none => jsOrNull it.isoDate))
            [Event.rewrite (AppV4.guidOf it),
             Event.publish (AppV4.guidOf it) none true]
        else
          Outcome.cont (BasicDb.markPosted s (AppV4.guidOf it) it.link
              (AppV4.titleOf it)
              (match jsOrNull it.pubDate with
               | some d => some d
               | none => jsOrNull it.isoDate))
            [Event.rewrite (AppV4.guidOf it),
             Event.publish (AppV4.guidOf it) none true]) := by
      simp only [AppV4.runItem, if_neg hmk, hrw, hpub, himg, AppV4.imgSrcOf,
        Option.isSome_some]
    have hstate : BasicDb.hasBeenPosted
        (BasicDb.markPosted s (AppV4.guidOf it) it.link (AppV4.titleOf it)
          (match jsOrNull it.pubDate with
           | some d => some d
           | none => jsOrNull it.isoDate)) (AppV4.guidOf it) = true :=
      basicDb_posted_after_mark s _ _ _ _ hbp1 hbp2
    cases mode with
    | false =>
      simp only [AppV4.processOnce, List.take, drive, hru, Bool.false_eq_true,
        if_false, List.append_nil]
      exact ⟨trivial, hstate⟩
    | true =>
      simp only [AppV4.processOnce, List.take, drive, hru, if_true]
      exact ⟨trivial, hstate⟩

/-- Witness for C6 (amended): a no-image item contributes nothing in the
first program, and the concrete no-image scenario of the third program
rewrites, publishes and commits. -/
theorem C6_witness :
    (drive AppV1.runItem []
        [((⟨some "g6", none, "http://ex/c6", "No Image Story",
            some "<p>plain text only</p>", none, none, none, none⟩ : FeedItem),
          envOkV1)] =
      drive AppV1.runItem [] []) ∧
    (AppV4.processOnce false true 1 [] [(c6Item, c6Env)]).2 =
      [Event.rewrite (AppV4.guidOf c6Item),
       Event.publish (AppV4.guidOf c6Item) none true] ∧
    BasicDb.hasBeenPosted
      (AppV4.processOnce false true 1 [] [(c6Item, c6Env)]).1
      (AppV4.guidOf c6Item) = true :=
  ⟨C6_skip_on_missing_image_amended.1 [] _ envOkV1 [] (by decide),
    C6_skip_on_missing_image_amended.2 false true [] c6Item c6Env
      "<p>rewritten</p>" "http://blog/c6" (by decide) (by decide) (by decide)
      rfl rfl⟩

/-! ## Claim C7 -/

/-- C7: fallback-to-original on transform failure.  In the first app.js
program, when the item's image URL was resolved and the Jimp overlay fails,
the orchestrator does not skip the item: the Rewriter is invoked and the
Publisher is invoked with the original (untransformed) image URL.  The same
holds in part_001's first program when `concealLogoAndResize` fails: the
item proceeds with the original RSS image URL. -/
theorem C7_fallback_to_original_on_transform_failure :
    (∀ (s : List PostRecordBasic) (it : FeedItem) (e : AppV1.ItemEnv)
        (rest : List (FeedItem × AppV1.ItemEnv)) (u : String),
      BasicDb.hasBeenPosted s (identityOf it) = false →
      firstImgSrc (contentOf it) = some u →
      e.overlay = none →
      ∃ tail, (drive AppV1.runItem s ((it, e) :: rest)).2 =
        Event.rewrite (identityOf it) ::
          Event.publish (identityOf it) (some u) e.publish.isSome :: tail) ∧
    (∀ (mode : Bool) (s : List PostRecord) (it : FeedItem)
        (e : MobiGadget.ItemEnv) (rest : List (FeedItem × MobiGadget.ItemEnv))
        (u : String),
      MobiGadget.hasBeenPosted s (identityOf it) it.link it.title = false →
      firstImgSrc (contentOf it) = some u →
      e.transform = none →
      ∃ tail, (drive (MobiGadget.runItem mode) s ((it, e) :: rest)).2 =
        Event.rewrite (identityOf it) ::
          Event.publish (identityOf it) (some u) e.publish.isSome :: tail) := by
  constructor
  · intro s it e rest u hbp himg hov
    have hbp' : ¬(BasicDb.hasBeenPosted s (identityOf it) = true) := by
      rw [hbp]
      simp
    cases hpub : e.publish with
    | none =>
      refine ⟨[], ?_⟩
      simp only [drive, AppV1.runItem, if_neg hbp', himg,
        AppV1.overlayLogoOnImage, hov, hpub, Option.isSome_none,
        Outcome.events]
    | some url =>
      refine ⟨(drive AppV1.runItem (BasicDb.markPosted s (identityOf it)
        it.link it.title it.pubDate) rest).2, ?_⟩
      simp only [drive, AppV1.runItem, if_neg hbp', himg,
        AppV1.overlayLogoOnImage, hov, hpub, Option.isSome_some,
        Outcome.events, List.cons_append, List.nil_append]
  · intro mode s it e rest u hbp himg htr
    have hbp' : ¬(MobiGadget.hasBeenPosted s (identityOf it) it.link
        it.title = true) := by
      rw [hbp]
      simp
    cases hpub : e.publish with
    | none =>
      refine ⟨[], ?_⟩
      simp only [drive, MobiGadget.runItem, if_neg hbp', himg, htr,
        hpub, Option.isSome_none, Outcome.events]
    | some url =>
      cases mode with
      | false =>
        refine ⟨(drive (MobiGadget.runItem false)
          (MobiGadget.markPosted s (identityOf it) it.link it.title
            it.pubDate) rest).2, ?_⟩
        simp only [drive, MobiGadget.runItem, if_neg hbp', himg, htr, hpub,
          Option.isSome_some, Bool.false_eq_true, if_false,
          Outcome.events, List.cons_append, List.nil_append]
      | true =>
        refine ⟨[], ?_⟩
        simp only [drive, MobiGadget.runItem, if_neg hbp', himg, htr, hpub,
          Option.isSome_some, if_true, Outcome.events]

/-- Witness for C7: a concrete item whose overlay (first program) and sharp
transform (part_001) fail is still rewritten and published with the original
image URL `http://ex/pic.jpg`. -/
theorem C7_witness :
    (∃ tail, (drive AppV1.runItem []
        [(imgItem "g7" "http://ex/c7" "T7",
          { overlay := none, rewrite := some "<p>r</p>",
            publish := some "http://blog/c7" })]).2 =
      Event.rewrite "g7" ::
        Event.publish "g7" (some "http://ex/pic.jpg") true :: tail) ∧
    (∃ tail, (drive (MobiGadget.runItem false) ([] : List PostRecord)
        [(imgItem "g7" "http://ex/c7" "T7",
          ({ transform := none, upload := none, rewrite := some "<p>r</p>",
             publish := some "http://blog/c7" } : MobiGadget.ItemEnv))]).2 =
      Event.rewrite "g7" ::
        Event.publish "g7" (some "http://ex/pic.jpg") true :: tail) :=
  ⟨C7_fallback_to_original_on_transform_failure.1 [] _ _ []
      "http://ex/pic.jpg" (by decide) (by decide) rfl,
    C7_fallback_to_original_on_transform_failure.2 false [] _ _ []
      "http://ex/pic.jpg" (by decide) (by decide) rfl⟩

/-! ## Claim C9 -/

/-- C9: counterexample.  In the first app.js program a failing
`blogger.posts.insert` is not caught per item: the throw reaches the
pass-level catch, so the pass ends — the second, perfectly processable
candidate is never touched (no events for `g92`), although the process
survives and the ledger is unchanged. -/
theorem C9_publish_failure_aborts_pass :
    (AppV1.processOnce 2 []
        [(imgItem "g91" "l91" "t91", envPubFailV1),
         (imgItem "g92" "l92" "t92", envOkV1)]).2 =
      [Event.rewrite "g91",
       Event.publish "g91" (some "http://ex/pic.jpg") false] ∧
    (AppV1.processOnce 2 []
        [(imgItem "g91" "l91" "t91", envPubFailV1),
         (imgItem "g92" "l92" "t92", envOkV1)]).1 = [] :=
  ⟨by decide, by decide⟩

/-- C9 (amended): which failures are contained per item depends on the
variant.  A publish failure is contained per item where the insert sits in
a per-item try/catch — the third app.js program and part_001's second
program (GSM2Blogger Lite, the claim's cited lines): the pass continues
with the next candidate and the ledger is unchanged by the failed item.
In the first app.js program a publish failure instead ends the whole pass:
the remaining candidates are abandoned (the pass-level catch keeps the
process alive and the ledger untouched).  A rewrite failure is contained
in the third app.js program (per-item catch-and-continue; in the first
app.js program and part_001's first program the rewrite recovers
internally by fallback, per C2/C7), but in the Lite program a rewrite
failure aborts the whole pass — nothing catches it, so the remaining
candidates are abandoned and the exception escapes `processOnce`
uncaught. -/
theorem C9_per_item_failure_containment_amended :
    (∀ (s : List PostRecordBasic) (it : FeedItem) (e : AppV1.ItemEnv)
        (rest : List (FeedItem × AppV1.ItemEnv)) (u : String),
      BasicDb.hasBeenPosted s (identityOf it) = false →
      firstImgSrc (contentOf it) = some u →
      e.publish = none →
      drive AppV1.runItem s ((it, e) :: rest) =
        (s, [Event.rewrite (identityOf it),
             Event.publish (identityOf it)
               (some (AppV1.overlayLogoOnImage e u)) false])) ∧
    (∀ (mode logoExists : Bool) (s : List PostRecordBasic) (it : FeedItem)
        (e : AppV4.ItemEnv) (rest : List (FeedItem × AppV4.ItemEnv))
        (html : String),
      (BasicDb.hasBeenPosted s (AppV4.guidOf it) ||
        BasicDb.hasBeenPosted s it.link) = false →
      e.rewrite = some html →
      e.publish = none →
      drive (AppV4.runItem mode logoExists) s ((it, e) :: rest) =
        ((drive (AppV4.runItem mode logoExists) s rest).1,
          Event.rewrite (AppV4.guidOf it) ::
            Event.publish (AppV4.guidOf it)
              (AppV4.imgSrcOf logoExists e (AppV4.resolve e it).2) false ::
            (drive (AppV4.runItem mode logoExists) s rest).2)) ∧
    (∀ (mode logoExists : Bool) (s : List PostRecordBasic) (it : FeedItem)
        (e : AppV4.ItemEnv) (rest : List (FeedItem × AppV4.ItemEnv)),
      (BasicDb.hasBeenPosted s (AppV4.guidOf it) ||
        BasicDb.hasBeenPosted s it.link) = false →
      e.rewrite = none →
      drive (AppV4.runItem mode logoExists) s ((it, e) :: rest) =
        ((drive (AppV4.runItem mode logoExists) s rest).1,
          Event.rewrite (AppV4.guidOf it) ::
            (drive (AppV4.runItem mode logoExists) s rest).2)) ∧
    (∀ (mode logoExists : Bool) (s : List PostRecordBasic) (it : FeedItem)
        (e : GsmLite.ItemEnv) (rest : List (FeedItem × GsmLite.ItemEnv))
        (mt : String × List String) (html alt : String),
      (BasicDb.hasBeenPosted s (AppV4.guidOf it) ||
        BasicDb.hasBeenPosted s it.link) = false →
      e.metaSEO = some mt →
      e.rewrite = some html →
      e.imageMeta = some alt →
      e.publish = none →
      ∃ img, drive (GsmLite.runItem mode logoExists) s ((it, e) :: rest) =
        ((drive (GsmLite.runItem mode logoExists) s rest).1,
          Event.rewrite (AppV4.guidOf it) ::
            Event.publish (AppV4.guidOf it) img false ::
            (drive (GsmLite.runItem mode logoExists) s rest).2)) ∧
    (∀ (mode logoExists : Bool) (s : List PostRecordBasic) (it : FeedItem)
        (e : GsmLite.ItemEnv) (rest : List (FeedItem × GsmLite.ItemEnv))
        (mt : String × List String),
      (BasicDb.hasBeenPosted s (AppV4.guidOf it) ||
        BasicDb.hasBeenPosted s it.link) = false →
      e.metaSEO = some mt →
      e.rewrite = none →
      drive (GsmLite.runItem mode logoExists) s ((it, e) :: rest) =
        (s, [Event.rewrite (AppV4.guidOf it)])) := by
  refine ⟨?_, ?_, ?_, ?_, ?_⟩
  · intro s it e rest u hbp himg hpub
    have hbp' : ¬(BasicDb.hasBeenPosted s (identityOf it) = true) := by
      rw [hbp]
      simp
    have hru : AppV1.runItem s (it, e) = Outcome.stop s
        [Event.rewrite (identityOf it),
         Event.publish (identityOf it)
           (some (AppV1.overlayLogoOnImage e u)) false] := by
      simp only [AppV1.runItem, if_neg hbp', himg, hpub, Option.isSome_none]
    simp only [drive, hru]
  · intro mode logoExists s it e rest html hmk hrw hpub
    have hmk' : ¬((BasicDb.hasBeenPosted s (AppV4.guidOf it) ||
        BasicDb.hasBeenPosted s it.link) = true) := by
      rw [hmk]
      simp
    have hru : AppV4.runItem mode logoExists s (it, e) = Outcome.cont s
        [Event.rewrite (AppV4.guidOf it),
         Event.publish (AppV4.guidOf it)
           (AppV4.imgSrcOf logoExists e (AppV4.resolve e it).2) false] := by
      simp only [AppV4.runItem, if_neg hmk', hrw, hpub, Option.isSome_none]
    simp only [drive, hru, List.cons_append, List.nil_append]
  · intro mode logoExists s it e rest hmk hrw
    have hmk' : ¬((BasicDb.hasBeenPosted s (AppV4.guidOf it) ||
        BasicDb.hasBeenPosted s it.link) = true) := by
      rw [hmk]
      simp
    have hru : AppV4.runItem mode logoExists s (it, e) = Outcome.cont s
        [Event.rewrite (AppV4.guidOf it)] := by
      simp only [AppV4.runItem, if_neg hmk', hrw]
    simp only [drive, hru, List.cons_append, List.nil_append]
  · intro mode logoExists s it e rest mt html alt hmk hmeta hrw himeta hpub
    have hmk' : ¬((BasicDb.hasBeenPosted s (AppV4.guidOf it) ||
        BasicDb.hasBeenPosted s it.link) = true) := by
      rw [hmk]
      simp
    cases himgu : (GsmLite.resolve e it).2 with
    | none =>
      refine ⟨none, ?_⟩
      have hru : GsmLite.runItem mode logoExists s (it, e) = Outcome.cont s
          [Event.rewrite (AppV4.guidOf it),
           Event.publish (AppV4.guidOf it) none false] := by
        simp only [GsmLite.runItem, if_neg hmk', hmeta, hrw, himgu,
          GsmLite.postStep, hpub, Option.isSome_none]
      simp only [drive, hru, List.cons_append, List.nil_append]
    | some u =>
      refine ⟨some (jsOrStr (if logoExists then e.upload else none) u), ?_⟩
      have hru : GsmLite.runItem mode logoExists s (it, e) = Outcome.cont s
          [Event.rewrite (AppV4.guidOf it),
           Event.publish (AppV4.guidOf it)
             (some (jsOrStr (if logoExists then e.upload else none) u))
             false] := by
        simp only [GsmLite.runItem, if_neg hmk', hmeta, hrw, himgu, himeta,
          GsmLite.postStep, hpub, Option.isSome_none]
      simp only [drive, hru, List.cons_append, List.nil_append]
  · intro mode logoExists s it e rest mt hmk hmeta hrw
    have hmk' : ¬((BasicDb.hasBeenPosted s (AppV4.guidOf it) ||
        BasicDb.hasBeenPosted s it.link) = true) := by
      rw [hmk]
      simp
    have hru : GsmLite.runItem mode logoExists s (it, e) = Outcome.stop s
        [Event.rewrite (AppV4.guidOf it)] := by
      simp only [GsmLite.runItem, if_neg hmk', hmeta, hrw]
    simp only [drive, hru]

/-- Witness for C9 (amended) at concrete single-item scenarios: the failed
publish ends the first program's pass with the ledger unchanged; the third
app.js program carries on past both a failed publish and a failed rewrite;
the Lite program carries on past a failed publish but halts on a failed
rewrite. -/
theorem C9_witness :
    drive AppV1.runItem []
        [(imgItem "g91" "l91" "t91", envPubFailV1)] =
      ([], [Event.rewrite "g91",
            Event.publish "g91"
              (some (AppV1.overlayLogoOnImage envPubFailV1
                "http://ex/pic.jpg")) false]) ∧
    drive (AppV4.runItem false true) []
        [(imgItem "g93" "l93" "t93", c9EnvV4)] =
      ((drive (AppV4.runItem false true) [] []).1,
        Event.rewrite (AppV4.guidOf (imgItem "g93" "l93" "t93")) ::
          Event.publish (AppV4.guidOf (imgItem "g93" "l93" "t93"))
            (AppV4.imgSrcOf true c9EnvV4
              (AppV4.resolve c9EnvV4 (imgItem "g93" "l93" "t93")).2) false ::
          (drive (AppV4.runItem false true) [] []).2) ∧
    drive (AppV4.runItem false true) []
        [(imgItem "g94" "l94" "t94",
          ({ page := none, rewrite := none, transform := none, upload := none,
             publish := none } : AppV4.ItemEnv))] =
      ((drive (AppV4.runItem false true) [] []).1,
        Event.rewrite (AppV4.guidOf (imgItem "g94" "l94" "t94")) ::
          (drive (AppV4.runItem false true) [] []).2) ∧
    (∃ img, drive (GsmLite.runItem false true) []
        [(imgItem "g95" "l95" "t95", c9EnvLite)] =
      ((drive (GsmLite.runItem false true) [] []).1,
        Event.rewrite (AppV4.guidOf (imgItem "g95" "l95" "t95")) ::
          Event.publish (AppV4.guidOf (imgItem "g95" "l95" "t95")) img
            false ::
          (drive (GsmLite.runItem false true) [] []).2)) ∧
    drive (GsmLite.runItem false true) []
        [(imgItem "g96" "l96" "t96", c9EnvLiteRwFail)] =
      ([], [Event.rewrite (AppV4.guidOf (imgItem "g96" "l96" "t96"))]) :=
  ⟨C9_per_item_failure_containment_amended.1 [] _ _ [] "http://ex/pic.jpg"
      (by decide) (by decide) rfl,
    C9_per_item_failure_containment_amended.2.1 false true [] _ _ [] "<p>r</p>"
      (by decide) rfl rfl,
    C9_per_item_failure_containment_amended.2.2.1 false true [] _ _ []
      (by decide) rfl,
    C9_per_item_failure_containment_amended.2.2.2.1 false true [] _ _ []
      ("d", ["t1"]) "<p>r</p>" "alt text" (by decide) rfl rfl rfl rfl,
    C9_per_item_failure_containment_amended.2.2.2.2 false true [] _ _ []
      ("d", []) (by decide) rfl rfl⟩

/-! ## Claim C10 -/

lemma mobiseko_runItem_cache_mono (mode : Bool) (s : Mobiseko.LedgerState)
    (x : FeedItem × Mobiseko.ItemEnv) (g : String)
    (h : s.cache.contains g = true) :
    (Mobiseko.runItem mode s x).state.cache.contains g = true := by
  have hmono := setAdd_contains_mono s.cache g (identityOf x.1) h
  cases had : x.2.articleData with
  | none => simpa only [Mobiseko.runItem, had, Outcome.state] using hmono
  | some ad =>
    by_cases hb : (ad.article_body == "") = true
    · simpa only [Mobiseko.runItem, had, if_pos hb, Outcome.state] using hmono
    · cases hpub : x.2.publish with
      | none =>
        simpa only [Mobiseko.runItem, had, if_neg hb, hpub, Outcome.state]
          using hmono
      | some url =>
        have hstate : (Mobiseko.runItem mode s x).state =
            Mobiseko.markPosted
              { s with cache := Mobiseko.setAdd s.cache (identityOf x.1) }
              (identityOf x.1) x.1.link x.1.title x.1.pubDate := by
          cases mode <;> simp only [Mobiseko.runItem, had, if_neg hb, hpub,
            Outcome.state, Bool.false_eq_true, if_false, if_true]
        rw [hstate]
        simp only [Mobiseko.markPosted]
        exact setAdd_contains_mono _ g _ hmono

lemma mobiseko_drive_cache_mono (mode : Bool) (g : String)
    (l : List (FeedItem × Mobiseko.ItemEnv)) (s : Mobiseko.LedgerState)
    (h : s.cache.contains g = true) :
    (drive (Mobiseko.runItem mode) s l).1.cache.contains g = true :=
  (drive_invariant (fun st => st.cache.contains g = true) (fun _ => True)
    (Mobiseko.runItem mode) l s
    (fun s' x _ hP =>
      ⟨mobiseko_runItem_cache_mono mode s' x g hP, fun _ _ => trivial⟩) h).1

lemma mobiseko_selected_identity_ne (s : Mobiseko.LedgerState)
    (feed : List (FeedItem × Mobiseko.ItemEnv)) (maxItems : Nat) (g : String)
    (hg : s.cache.contains g = true) :
    ∀ x ∈ Mobiseko.itemsToProcess s feed maxItems, identityOf x.1 ≠ g := by
  intro x hx heq
  have hx' := List.mem_of_mem_take hx
  have hcond := (List.mem_filter.mp hx').2
  rw [heq] at hcond
  unfold Mobiseko.hasBeenPosted at hcond
  rw [hg] at hcond
  simp at hcond

lemma mobiseko_runItem_frozen (mode : Bool) (s0 : List PostRecord)
    (g : String) (s : Mobiseko.LedgerState) (x : FeedItem × Mobiseko.ItemEnv)
    (hne : identityOf x.1 ≠ g)
    (hc : s.cache.contains g = true)
    (hdb : ∀ r ∈ s.db, r.guid = g → r ∈ s0) :
    ((Mobiseko.runItem mode s x).state.cache.contains g = true ∧
      ∀ r ∈ (Mobiseko.runItem mode s x).state.db, r.guid = g → r ∈ s0) ∧
    (∀ ev ∈ (Mobiseko.runItem mode s x).events, Event.identity ev ≠ g) := by
  have hmono := setAdd_contains_mono s.cache g (identityOf x.1) hc
  cases had : x.2.articleData with
  | none =>
    simp only [Mobiseko.runItem, had, Outcome.state, Outcome.events]
    exact ⟨⟨hmono, hdb⟩, by simp⟩
  | some ad =>
    by_cases hb : (ad.article_body == "") = true
    · simp only [Mobiseko.runItem, had, if_pos hb, Outcome.state,
        Outcome.events]
      exact ⟨⟨hmono, hdb⟩, by simp⟩
    · cases hpub : x.2.publish with
      | none =>
        simp only [Mobiseko.runItem, had, if_neg hb, hpub, Outcome.state,
          Outcome.events]
        refine ⟨⟨hmono, hdb⟩, ?_⟩
        intro ev hev
        simp only [List.mem_singleton] at hev
        subst hev
        simpa [Event.identity] using hne
      | some url =>
        have hstate : (Mobiseko.runItem mode s x).state =
            Mobiseko.markPosted
              { s with cache := Mobiseko.setAdd s.cache (identityOf x.1) }
              (identityOf x.1) x.1.link x.1.title x.1.pubDate := by
          cases mode <;> simp only [Mobiseko.runItem, had, if_neg hb, hpub,
            Outcome.state, Bool.false_eq_true, if_false, if_true]
        have hevents : (Mobiseko.runItem mode s x).events =
            [Event.publish (identityOf x.1)
              (match x.2.unsplash with
               | some u => some (jsOrStr x.2.bloggerUpload u)
               | none => none) true] := by
          cases mode <;> simp only [Mobiseko.runItem, had, if_neg hb, hpub,
            Outcome.events, Bool.false_eq_true, if_false, if_true,
            Option.isSome_some]
        rw [hstate, hevents]
        refine ⟨⟨?_, ?_⟩, ?_⟩
        · simp only [Mobiseko.markPosted]
          exact setAdd_contains_mono _ g _ hmono
        · intro r hr hrg
          simp only [Mobiseko.markPosted] at hr
          by_cases hcf : s.db.any (fun q => q.guid == identityOf x.1 ||
              q.link == x.1.link ||
              q.titleSlug == generateSlug x.1.title) = true
          · rw [if_pos (by simpa using hcf)] at hr
            exact hdb r (by simpa using hr) hrg
          · rw [if_neg (by simpa using hcf)] at hr
            simp only [List.mem_append, List.mem_singleton] at hr
            rcases hr with h | h
            · exact hdb r h hrg
            · subst h
              exact absurd hrg hne
        · intro ev hev
          simp only [List.mem_singleton] at hev
          subst hev
          simpa [Event.identity] using hne

lemma mobiseko_pass_frozen (mode : Bool) (maxItems : Nat)
    (s0 : List PostRecord) (g : String) (s : Mobiseko.LedgerState)
    (feed : List (FeedItem × Mobiseko.ItemEnv))
    (hc : s.cache.contains g = true)
    (hdb : ∀ r ∈ s.db, r.guid = g → r ∈ s0) :
    ((Mobiseko.processOnce mode maxItems s feed).1.cache.contains g = true ∧
      ∀ r ∈ (Mobiseko.processOnce mode maxItems s feed).1.db,
        r.guid = g → r ∈ s0) ∧
    ∀ ev ∈ (Mobiseko.processOnce mode maxItems s feed).2,
      Event.identity ev ≠ g :=
  drive_invariant
    (fun st => st.cache.contains g = true ∧ ∀ r ∈ st.db, r.guid = g → r ∈ s0)
    (fun ev => Event.identity ev ≠ g)
    (Mobiseko.runItem mode) (Mobiseko.itemsToProcess s feed maxItems) s
    (fun s' x hx hP =>
      mobiseko_runItem_frozen mode s0 g s' x
        (mobiseko_selected_identity_ne s feed maxItems g hc x hx) hP.1 hP.2)
    ⟨hc, hdb⟩

/-- C10: in part_000 the identity of a selected item enters the
process-lifetime `PROCESSED_CACHE` before any external call — it is there
even when the very first external call (article generation) fails; a cached
identity makes `hasBeenPosted` report true irrespective of the table; and
once an identity is cached, across any number of later passes in the same
process no event (in particular no Publisher invocation) ever concerns that
identity again and no table row for it is ever added — a failed item is
never retried although it was never published and has no ledger row. -/
theorem C10_cache_added_before_publish_poisons_retries :
    (∀ (mode : Bool) (s : Mobiseko.LedgerState) (it : FeedItem)
        (e : Mobiseko.ItemEnv) (rest : List (FeedItem × Mobiseko.ItemEnv)),
      e.articleData = none →
      (drive (Mobiseko.runItem mode) s
        ((it, e) :: rest)).1.cache.contains (identityOf it) = true) ∧
    (∀ (s : Mobiseko.LedgerState) (guid link title : String),
      s.cache.contains guid = true →
      Mobiseko.hasBeenPosted s guid link title = true) ∧
    (∀ (mode : Bool) (maxItems : Nat) (s : Mobiseko.LedgerState)
        (passes : List (List (FeedItem × Mobiseko.ItemEnv))) (guid : String),
      s.cache.contains guid = true →
      (∀ ev ∈ (Mobiseko.runPasses mode maxItems s passes).2,
        Event.identity ev ≠ guid) ∧
      (∀ r ∈ (Mobiseko.runPasses mode maxItems s passes).1.db,
        r.guid = guid → r ∈ s.db) ∧
      (Mobiseko.runPasses mode maxItems s passes).1.cache.contains guid =
        true) := by
  refine ⟨?_, ?_, ?_⟩
  · intro mode s it e rest had
    have hru : Mobiseko.runItem mode s (it, e) = Outcome.cont
        { s with cache := Mobiseko.setAdd s.cache (identityOf it) } [] := by
      simp only [Mobiseko.runItem, had]
    simp only [drive, hru]
    exact mobiseko_drive_cache_mono mode (identityOf it) rest _
      (setAdd_contains_self s.cache (identityOf it))
  · intro s guid link title h
    unfold Mobiseko.hasBeenPosted
    rw [h]
    simp
  · intro mode maxItems s passes guid hc
    have hinv := runPassesG_invariant
      (fun st => st.cache.contains guid = true ∧
        ∀ r ∈ st.db, r.guid = guid → r ∈ s.db)
      (fun ev => Event.identity ev ≠ guid)
      (fun s0' f => Mobiseko.processOnce mode maxItems s0' f) passes s
      (fun s' f _ hP =>
        mobiseko_pass_frozen mode maxItems s.db guid s' f hP.1 hP.2)
      ⟨hc, fun r hr _ => hr⟩
    exact ⟨hinv.2, hinv.1.2, hinv.1.1⟩

/-- Witness for C10: with article generation failing, the identity `gx` is
cached after the pass; a state whose cache holds `gx` reports it posted; and
a later pass over a feed that still carries `gx` emits no event at all for
it and leaves it cached. -/
theorem C10_witness :
    (drive (Mobiseko.runItem false) ⟨[], []⟩
        [(imgItem "gx" "http://ex/x" "TX",
          ({ articleData := none, unsplash := none, bloggerUpload := none,
             category := none, publish := none } :
            Mobiseko.ItemEnv))]).1.cache.contains "gx" = true ∧
    Mobiseko.hasBeenPosted ⟨["gx"], []⟩ "gx" "http://ex/x" "TX" = true ∧
    (Mobiseko.runPasses false 1 ⟨["gx"], []⟩
        [[(imgItem "gx" "http://ex/x" "TX", envOkM2)]]).1.cache.contains
      "gx" = true ∧
    (Mobiseko.runPasses false 1 ⟨["gx"], []⟩
        [[(imgItem "gx" "http://ex/x" "TX", envOkM2)]]).2 = [] :=
  ⟨C10_cache_added_before_publish_poisons_retries.1 false ⟨[], []⟩
      (imgItem "gx" "http://ex/x" "TX") _ [] rfl,
    C10_cache_added_before_publish_poisons_retries.2.1 ⟨["gx"], []⟩
      "gx" "http://ex/x" "TX" (by decide),
    (C10_cache_added_before_publish_poisons_retries.2.2 false 1 ⟨["gx"], []⟩
      [[(imgItem "gx" "http://ex/x" "TX", envOkM2)]] "gx" (by decide)).2.2,
    by decide⟩
